import Mathlib

/-!
# Verification of the CloudSim EEC scheduler variants

Shallow embedding of the `Scheduler::NewTask`, `Scheduler::Shutdown` and
`PriorityFromSLA` routines found in the repository.  The repository holds
four variants of `Scheduler.cpp`:

* the "Load Balancing" variant (first half of `Scheduler.cpp`): least-loaded
  selection with a forced fallback placement `vms[task_id % active_machines]`
  when no feasible host is found;
* the "pMapper" variant (second half of `Scheduler.cpp`):
  consolidation-efficiency scoring with a `+0.1` bonus added once per
  matching pooled VM, a GPU feasibility check, and a `VM_Create` failure
  check;
* the "Greedy" variant of `part_000`: best-slack scoring with the CPU
  architecture check commented out and no cap on cpu utilization;
* the "Greedy" variant of `part_001`: best-slack scoring with the CPU check,
  cpu utilization capped at `1.0`, and no `VM_Create` failure check.

Machine integers are embedded as `Nat`; the C++ `double` arithmetic of the
scoring loops is embedded exactly over `ℚ` (all counterexamples below use
values whose double computation is exact or whose comparisons are far from
rounding error).  The simulator host is an oracle: machine snapshots are a
function `Nat → MachineInfo`, and the id returned by `VM_Create` is a
parameter (`4294967295`, i.e. `(VMId_t)-1`, encodes the host's failure
return).  Host mutators are recorded in a trace of `HostCall`s.
-/

set_option linter.unusedVariables false

namespace CloudSim

/-- CPU architectures from `SimTypes.h` (`CPUType_t`). -/
inductive CPUType where
  | ARM | POWER | RISCV | X86
deriving DecidableEq, Repr

/-- VM types (`VMType_t`). -/
inductive VMType where
  | AIX | LINUX | LINUX_RT | WIN
deriving DecidableEq, Repr

/-- SLA classes (`SLAType_t`). -/
inductive SLAType where
  | SLA0 | SLA1 | SLA2 | SLA3
deriving DecidableEq, Repr

/-- Task priorities (`Priority_t`). -/
inductive Priority where
  | HIGH_PRIORITY | MID_PRIORITY | LOW_PRIORITY
deriving DecidableEq, Repr

/-- Machine power states (`MachineState_t`); only `S0` (running) matters to
the scheduler. -/
inductive SState where
  | S0 | S1 | S2 | S3 | S4 | S5
deriving DecidableEq, Repr

/-- The fields of `MachineInfo_t` read by the scheduler. -/
structure MachineInfo where
  s_state      : SState
  cpu          : CPUType
  memory_size  : Nat
  memory_used  : Nat
  num_cpus     : Nat
  active_tasks : Nat
  gpus         : Bool
deriving DecidableEq, Repr

/-- The task parameters read at the top of `Scheduler::NewTask`. -/
structure TaskReq where
  need_cpu : CPUType
  need_vm  : VMType
  need_gpu : Bool
  need_mem : Nat
  sla      : SLAType
deriving DecidableEq, Repr

/-- A pooled VM: its id together with the `VMInfo_t` fields
(`machine_id`, `vm_type`, `cpu`) that `VM_GetInfo` reports for it. -/
structure VMRec where
  id         : Nat
  machine_id : Nat
  vm_type    : VMType
  cpu        : CPUType
deriving DecidableEq, Repr

/-- The scheduler's own state: the fleet view `machines`, the VM pool `vms`
(in creation/registration order), and the file-scope `migrating` flag. -/
structure SchedState where
  machines  : List Nat
  vms       : List VMRec
  migrating : Bool
deriving DecidableEq, Repr

/-- Host mutator requests issued by the scheduler, in order. -/
inductive HostCall where
  | setState   (machine : Nat) (s : SState)
  | vmCreate   (vmt : VMType) (cpu : CPUType)
  | vmAttach   (vm : Nat) (machine : Nat)
  | addTask    (vm : Nat) (task : Nat) (p : Priority)
  | vmShutdown (vm : Nat)
deriving DecidableEq, Repr

/-- The value `(VMId_t)-1`, the failure return of `VM_Create` checked by the pMapper
variant (`vm == (VMId_t)-1`). -/
def UINT32_MAX : Nat := 4294967295

/-- The helper `PriorityFromSLA` — identical in all four variants: `SLA0 ↦ HIGH`,
`SLA1 ↦ MID`, default `LOW`. -/
def PriorityFromSLA : SLAType → Priority
  | SLAType.SLA0 => Priority.HIGH_PRIORITY
  | SLAType.SLA1 => Priority.MID_PRIORITY
  | _            => Priority.LOW_PRIORITY

/-! ## Utilization and scoring (exact `ℚ` reading of the `double` code) -/

/-- cpu utilization as computed by `part_001` and the pMapper variant:
`active_tasks / num_cpus` capped at `1.0`, or `0` when `num_cpus == 0`. -/
def cpuUtilCapped (mi : MachineInfo) : ℚ :=
  if 0 < mi.num_cpus then
    min ((mi.active_tasks : ℚ) / (mi.num_cpus : ℚ)) 1
  else 0

/-- cpu utilization as computed by `part_000` (no cap):
`active_tasks / num_cpus`, or `0` when `num_cpus == 0`. -/
def cpuUtilRaw (mi : MachineInfo) : ℚ :=
  if 0 < mi.num_cpus then (mi.active_tasks : ℚ) / (mi.num_cpus : ℚ) else 0

/-- memory utilization after assignment:
`(memory_used + need_mem) / memory_size`. -/
def memUtilAfter (mi : MachineInfo) (need : Nat) : ℚ :=
  ((mi.memory_used + need : Nat) : ℚ) / (mi.memory_size : ℚ)

/-- slack as computed by `part_001`:
`1 - (u + v)` with `u` capped at `1`, plus `0.05` when the task wants a GPU
and the machine has one. -/
def greedySlack (mi : MachineInfo) (t : TaskReq) : ℚ :=
  1 - (cpuUtilCapped mi + memUtilAfter mi t.need_mem) +
    (if t.need_gpu && mi.gpus then 1/20 else 0)

/-- slack as computed by `part_000` (identical except the cpu utilization is
not capped). -/
def slack000 (mi : MachineInfo) (t : TaskReq) : ℚ :=
  1 - (cpuUtilRaw mi + memUtilAfter mi t.need_mem) +
    (if t.need_gpu && mi.gpus then 1/20 else 0)

/-- Test returning `true` iff the pooled VM `v` sits on `host` and matches the task's
declared VM type and CPU architecture — the test used both by the
reuse loops and by the pMapper bonus loop. -/
def matchingVM (v : VMRec) (host : Nat) (t : TaskReq) : Bool :=
  decide (v.machine_id = host) && decide (v.vm_type = t.need_vm) &&
    decide (v.cpu = t.need_cpu)

/-- efficiency as computed by the pMapper variant:
`1 - (0.5·u + 0.5·v)` with `u` capped at `1`, plus `0.1` **per** pooled VM
matching the candidate (the bonus loop runs over the whole pool), plus `0.1`
when the task wants a GPU and the machine has one. -/
def pmEfficiency (snap : Nat → MachineInfo) (vms : List VMRec) (t : TaskReq)
    (m : Nat) : ℚ :=
  1 - (cpuUtilCapped (snap m) + memUtilAfter (snap m) t.need_mem) / 2 +
    ((vms.filter (fun v => matchingVM v m t)).length : ℚ) / 10 +
    (if t.need_gpu && (snap m).gpus then 1/10 else 0)

/-! ## Feasibility filters (the `continue` guards of the scan loops) -/

/-- feasibility filter of `part_001` (and of the Load-Balancing variant):
running, matching CPU architecture, memory fits. -/
def greedyFeasible (mi : MachineInfo) (t : TaskReq) : Bool :=
  decide (mi.s_state = SState.S0) && decide (mi.cpu = t.need_cpu) &&
    decide (mi.memory_used + t.need_mem ≤ mi.memory_size)

/-- feasibility filter of `part_000`: the CPU check is commented out
("testing allowing different cpu types for now") and there is no GPU
check, so only the power state and the memory bound are enforced. -/
def feasible000 (mi : MachineInfo) (t : TaskReq) : Bool :=
  decide (mi.s_state = SState.S0) &&
    decide (mi.memory_used + t.need_mem ≤ mi.memory_size)

/-- feasibility filter of the pMapper variant: running, matching CPU,
GPU present when required, memory fits. -/
def pmFeasible (mi : MachineInfo) (t : TaskReq) : Bool :=
  decide (mi.s_state = SState.S0) && decide (mi.cpu = t.need_cpu) &&
    (!t.need_gpu || mi.gpus) &&
    decide (mi.memory_used + t.need_mem ≤ mi.memory_size)

/-! ## The best-score scan loop

All scoring variants share the same loop shape: iterate over the machine
list in pool order, skip infeasible entries, and update the running best on
a strictly greater score (`score > best_score`), starting from a sentinel
(`-1.0` for slack, `-1000000.0` for efficiency).  `selGo scores i acc`
processes `scores` whose head has pool index `i`, with `acc` the running
`(best_index?, best_score)` pair. -/

def selGo : List (Option ℚ) → Nat → Option Nat × ℚ → Option Nat × ℚ
  | [], _, acc => acc
  | none :: rest, i, acc => selGo rest (i + 1) acc
  | some s :: rest, i, acc =>
      selGo rest (i + 1) (if acc.2 < s then (some i, s) else acc)

/-- run the scan loop from pool index `0` with sentinel `init` and return
the selected pool index, if any. -/
def select (scores : List (Option ℚ)) (init : ℚ) : Option Nat :=
  (selGo scores 0 (none, init)).1

/-- the per-machine score list of `part_001`'s scan. -/
def greedyScores (snap : Nat → MachineInfo) (machines : List Nat)
    (t : TaskReq) : List (Option ℚ) :=
  machines.map fun m =>
    if greedyFeasible (snap m) t then some (greedySlack (snap m) t) else none

/-- Machine selection of `part_001` (`best_i`), `none` encoding `-1`. -/
def greedySelect (snap : Nat → MachineInfo) (machines : List Nat)
    (t : TaskReq) : Option Nat :=
  select (greedyScores snap machines t) (-1)

/-- the per-machine score list of `part_000`'s scan. -/
def scores000 (snap : Nat → MachineInfo) (machines : List Nat)
    (t : TaskReq) : List (Option ℚ) :=
  machines.map fun m =>
    if feasible000 (snap m) t then some (slack000 (snap m) t) else none

/-- Machine selection of `part_000`. -/
def select000 (snap : Nat → MachineInfo) (machines : List Nat)
    (t : TaskReq) : Option Nat :=
  select (scores000 snap machines t) (-1)

/-- the per-machine score list of the pMapper scan. -/
def pmScores (snap : Nat → MachineInfo) (machines : List Nat)
    (vms : List VMRec) (t : TaskReq) : List (Option ℚ) :=
  machines.map fun m =>
    if pmFeasible (snap m) t then some (pmEfficiency snap vms t m) else none

/-- the pMapper variant's machine selection (`best_i`). -/
def pmSelect (snap : Nat → MachineInfo) (machines : List Nat)
    (vms : List VMRec) (t : TaskReq) : Option Nat :=
  select (pmScores snap machines vms t) (-1000000)

/-! ## The least-loaded scan of the Load-Balancing variant -/

/-- scan loop of the Load-Balancing variant: update the running best on a
strictly smaller `active_tasks` count (`mi.active_tasks < best_load`),
starting from `UINT_MAX`. -/
def lbGo : List (Option Nat) → Nat → Option Nat × Nat → Option Nat × Nat
  | [], _, acc => acc
  | none :: rest, i, acc => lbGo rest (i + 1) acc
  | some s :: rest, i, acc =>
      lbGo rest (i + 1) (if s < acc.2 then (some i, s) else acc)

/-- the Load-Balancing variant's machine selection (`best_idx`). -/
def lbSelect (snap : Nat → MachineInfo) (machines : List Nat)
    (t : TaskReq) : Option Nat :=
  (lbGo
    (machines.map fun m =>
      if greedyFeasible (snap m) t then some ((snap m).active_tasks) else none)
    0 (none, UINT32_MAX)).1

/-- The `Scheduler::NewTask` of the Load-Balancing variant (first half of
`Scheduler.cpp`): assign to `vms[best_idx]`, or — when no feasible host was
found — fall back to `VM_AddTask(vms[task_id % active_machines], ...)`.
Returns the host-call trace. -/
def lbNewTask (snap : Nat → MachineInfo) (machines : List Nat)
    (vms : List Nat) (activeMachines : Nat) (t : TaskReq)
    (taskId : Nat) : List HostCall :=
  match lbSelect snap machines t with
  | some i => [HostCall.addTask (vms.getD i 0) taskId (PriorityFromSLA t.sla)]
  | none =>
      [HostCall.addTask (vms.getD (taskId % activeMachines) 0) taskId
        (PriorityFromSLA t.sla)]

/-! ## VM reuse and the full task-arrival handlers -/

/-- the reuse loop: first pooled VM, in creation order, on `host` with
matching VM type and CPU architecture. -/
def findReusableVM (vms : List VMRec) (host : Nat) (t : TaskReq) :
    Option VMRec :=
  vms.find? fun v => matchingVM v host t

/-- The `Scheduler::NewTask` of `part_001` (Greedy).  `now` is read and
discarded (`(void)now`).  `createRet` is the id the host's `VM_Create`
returns; `part_001` performs **no** failure check on it, so the value is
attached and committed to unconditionally.  Result: updated scheduler state
and the host-call trace. -/
def greedyNewTask (snap : Nat → MachineInfo) (now : Nat) (st : SchedState)
    (t : TaskReq) (taskId createRet : Nat) : SchedState × List HostCall :=
  match greedySelect snap st.machines t with
  | none => (st, [])
  | some i =>
      let host := st.machines.getD i 0
      match findReusableVM st.vms host t with
      | some v => (st, [HostCall.addTask v.id taskId (PriorityFromSLA t.sla)])
      | none =>
          ({ st with
              vms := st.vms ++ [⟨createRet, host, t.need_vm, (snap host).cpu⟩] },
           [HostCall.vmCreate t.need_vm (snap host).cpu,
            HostCall.vmAttach createRet host,
            HostCall.addTask createRet taskId (PriorityFromSLA t.sla)])

/-- The `Scheduler::NewTask` of the pMapper variant (second half of
`Scheduler.cpp`).  After selection it re-reads the host snapshot and
returns early if the architecture mismatches; on the creation path it
checks `vm == (VMId_t)-1` and, on failure, returns leaving the task
unallocated (the `VM_Create` request itself is recorded in the trace). -/
def pmNewTask (snap : Nat → MachineInfo) (now : Nat) (st : SchedState)
    (t : TaskReq) (taskId createRet : Nat) : SchedState × List HostCall :=
  match pmSelect snap st.machines st.vms t with
  | none => (st, [])
  | some i =>
      let host := st.machines.getD i 0
      if (snap host).cpu ≠ t.need_cpu then (st, [])
      else
        match findReusableVM st.vms host t with
        | some v =>
            (st, [HostCall.addTask v.id taskId (PriorityFromSLA t.sla)])
        | none =>
            if createRet = UINT32_MAX then
              (st, [HostCall.vmCreate t.need_vm (snap host).cpu])
            else
              ({ st with
                  vms :=
                    st.vms ++ [⟨createRet, host, t.need_vm, (snap host).cpu⟩] },
               [HostCall.vmCreate t.need_vm (snap host).cpu,
                HostCall.vmAttach createRet host,
                HostCall.addTask createRet taskId (PriorityFromSLA t.sla)])

/-- The `Scheduler::Shutdown` (identical in all variants): one `VM_Shutdown`
request per pooled VM, in pool order. -/
def shutdownAll (vms : List VMRec) : List HostCall :=
  vms.map fun v => HostCall.vmShutdown v.id

/-! ## Spec-side scoring definitions (for refinement comparison)

These two definitions follow the spec's §4.3 selection rules verbatim, to be
compared against the source-derived `greedySlack`/`pmEfficiency` above. -/

/-- Modelled from the spec: `slack = 1 − (cpu_utilization +
memory_utilization_after_assignment)` with `cpu_utilization =
active_tasks / core_count` (`0` if `core_count` is `0`, no cap) and a fixed
`+0.05` bonus if the task wants GPU and the machine has one. -/
def specSlack (mi : MachineInfo) (t : TaskReq) : ℚ :=
  1 - ((if 0 < mi.num_cpus then (mi.active_tasks : ℚ) / (mi.num_cpus : ℚ)
          else 0) +
        ((mi.memory_used + t.need_mem : Nat) : ℚ) / (mi.memory_size : ℚ)) +
    (if t.need_gpu && mi.gpus then 1/20 else 0)

/-- Modelled from the spec: `efficiency = 1 − (0.5·cpu_utilization +
0.5·memory_utilization_after_assignment)` plus **one** fixed `+0.1` bonus if
a VM with matching type/architecture already exists on the candidate
(regardless of how many such VMs exist) and a fixed `+0.1` bonus if GPU is
requested and present. -/
def specEfficiency (snap : Nat → MachineInfo) (vms : List VMRec) (t : TaskReq)
    (m : Nat) : ℚ :=
  1 - ((if 0 < (snap m).num_cpus then
          ((snap m).active_tasks : ℚ) / ((snap m).num_cpus : ℚ)
        else 0) / 2 +
       (((snap m).memory_used + t.need_mem : Nat) : ℚ) /
          ((snap m).memory_size : ℚ) / 2) +
    (if vms.any (fun v => matchingVM v m t) then 1/10 else 0) +
    (if t.need_gpu && (snap m).gpus then 1/10 else 0)

/-! ## Concrete fixtures used by the counterexamples and witnesses -/

/-- a fleet whose only machine is memory-full (`memory_used = memory_size`). -/
def cexSnapFull : Nat → MachineInfo :=
  fun _ => ⟨SState.S0, CPUType.X86, 10, 10, 8, 0, false⟩

/-- an X86 task demanding 8 MB — infeasible on `cexSnapFull`. -/
def taskMem8 : TaskReq := ⟨CPUType.X86, VMType.LINUX, false, 8, SLAType.SLA2⟩

/-- a fleet whose only machine is an empty ARM box. -/
def cexSnapARM : Nat → MachineInfo :=
  fun _ => ⟨SState.S0, CPUType.ARM, 100, 0, 8, 0, false⟩

/-- an X86 task demanding 10 MB. -/
def taskX86Mem10 : TaskReq :=
  ⟨CPUType.X86, VMType.LINUX, false, 10, SLAType.SLA0⟩

/-- two identical X86 machines except machine 0 runs 16 active tasks on 8
cores (uncapped utilization 2.0, capped 1.0) while machine 1 runs 8 (both
utilizations 1.0). -/
def cexSnapCap : Nat → MachineInfo := fun m =>
  if m = 0 then ⟨SState.S0, CPUType.X86, 32768, 0, 8, 16, false⟩
  else ⟨SState.S0, CPUType.X86, 32768, 0, 8, 8, false⟩

/-- an X86 task demanding half of a 32768 MB machine. -/
def taskCap : TaskReq :=
  ⟨CPUType.X86, VMType.LINUX, false, 16384, SLAType.SLA2⟩

/-- two X86 machines: machine 0 slightly more loaded (3/10 used) than
machine 1 (2/10 used). -/
def cexSnapBonus : Nat → MachineInfo := fun m =>
  if m = 0 then ⟨SState.S0, CPUType.X86, 10, 3, 8, 0, false⟩
  else ⟨SState.S0, CPUType.X86, 10, 2, 8, 0, false⟩

/-- a pool holding two matching VMs on machine 0 and one on machine 1. -/
def cexVmsBonus : List VMRec :=
  [⟨50, 0, VMType.LINUX, CPUType.X86⟩, ⟨51, 0, VMType.LINUX, CPUType.X86⟩,
   ⟨52, 1, VMType.LINUX, CPUType.X86⟩]

/-- an X86/LINUX task demanding 2 MB. -/
def taskBonus : TaskReq := ⟨CPUType.X86, VMType.LINUX, false, 2, SLAType.SLA1⟩

/-- a fleet whose only machine is an empty X86 box. -/
def snapOneX86 : Nat → MachineInfo :=
  fun _ => ⟨SState.S0, CPUType.X86, 100, 0, 8, 0, false⟩

/-- an X86/LINUX task demanding 10 MB — feasible on `snapOneX86`. -/
def taskSimple : TaskReq := ⟨CPUType.X86, VMType.LINUX, false, 10, SLAType.SLA1⟩

/-- a pool holding one VM on machine 0 matching `taskSimple`. -/
def vmPool50 : List VMRec := [⟨50, 0, VMType.LINUX, CPUType.X86⟩]

end CloudSim

namespace CloudSim

/-! ## Specification of the best-score scan loop -/

/-- Invariant characterization of `selGo`: the final best score dominates the
initial one and every present score; and either the accumulator is returned
untouched, or the selected index points at a present score that strictly
exceeds the initial best and strictly dominates every earlier present score
(so ties go to the lowest pool index). -/
theorem selGo_spec (l : List (Option ℚ)) (i0 : Nat) (bi : Option Nat) (bs : ℚ) :
    bs ≤ (selGo l i0 (bi, bs)).2 ∧
    (∀ j s, l.get? j = some (some s) → s ≤ (selGo l i0 (bi, bs)).2) ∧
    (selGo l i0 (bi, bs) = (bi, bs) ∨
      ∃ k s, (selGo l i0 (bi, bs)).1 = some (i0 + k) ∧
        (selGo l i0 (bi, bs)).2 = s ∧ l.get? k = some (some s) ∧ bs < s ∧
        ∀ j t, j < k → l.get? j = some (some t) → t < s) := by
  induction l generalizing i0 bi bs with
  | nil =>
      refine ⟨le_refl _, ?_, Or.inl rfl⟩
      intro j s h
      simp [List.get?_nil] at h
  | cons hd tl ih =>
      cases hd with
      | none =>
          simp only [selGo]
          obtain ⟨h1, h2, h3⟩ := ih (i0 + 1) bi bs
          refine ⟨h1, ?_, ?_⟩
          · intro j s hj
            cases j with
            | zero => simp [List.get?_cons_zero] at hj
            | succ j => exact h2 j s (by simpa [List.get?_cons_succ] using hj)
          · rcases h3 with h3 | ⟨k, s, hk1, hk2, hk3, hk4, hk5⟩
            · exact Or.inl h3
            · refine Or.inr ⟨k + 1, s, ?_, hk2, ?_, hk4, ?_⟩
              · rw [hk1]; congr 1; omega
              · simpa [List.get?_cons_succ] using hk3
              · intro j t hj hjt
                cases j with
                | zero => simp [List.get?_cons_zero] at hjt
                | succ j =>
                    exact hk5 j t (by omega)
                      (by simpa [List.get?_cons_succ] using hjt)
      | some s0 =>
          by_cases hlt : bs < s0
          · simp only [selGo, hlt, if_pos]
            obtain ⟨h1, h2, h3⟩ := ih (i0 + 1) (some i0) s0
            refine ⟨le_trans (le_of_lt hlt) h1, ?_, ?_⟩
            · intro j s hj
              cases j with
              | zero =>
                  simp [List.get?_cons_zero] at hj; subst hj; exact h1
              | succ j => exact h2 j s (by simpa [List.get?_cons_succ] using hj)
            · rcases h3 with h3 | ⟨k, s, hk1, hk2, hk3, hk4, hk5⟩
              · refine Or.inr ⟨0, s0, ?_, ?_, ?_, hlt, ?_⟩
                · rw [h3]; simp
                · rw [h3]
                · simp [List.get?_cons_zero]
                · intro j t hj; omega
              · refine Or.inr ⟨k + 1, s, ?_, hk2, ?_, lt_trans hlt hk4, ?_⟩
                · rw [hk1]; congr 1; omega
                · simpa [List.get?_cons_succ] using hk3
                · intro j t hj hjt
                  cases j with
                  | zero =>
                      simp [List.get?_cons_zero] at hjt; subst hjt; exact hk4
                  | succ j =>
                      exact hk5 j t (by omega)
                        (by simpa [List.get?_cons_succ] using hjt)
          · simp only [selGo, hlt, if_neg, if_false]
            obtain ⟨h1, h2, h3⟩ := ih (i0 + 1) bi bs
            have hle : s0 ≤ bs := le_of_not_lt hlt
            refine ⟨h1, ?_, ?_⟩
            · intro j s hj
              cases j with
              | zero =>
                  simp [List.get?_cons_zero] at hj; subst hj
                  exact le_trans hle h1
              | succ j => exact h2 j s (by simpa [List.get?_cons_succ] using hj)
            · rcases h3 with h3 | ⟨k, s, hk1, hk2, hk3, hk4, hk5⟩
              · exact Or.inl h3
              · refine Or.inr ⟨k + 1, s, ?_, hk2, ?_, hk4, ?_⟩
                · rw [hk1]; congr 1; omega
                · simpa [List.get?_cons_succ] using hk3
                · intro j t hj hjt
                  cases j with
                  | zero =>
                      simp [List.get?_cons_zero] at hjt; subst hjt
                      exact lt_of_le_of_lt hle hk4
                  | succ j =>
                      exact hk5 j t (by omega)
                        (by simpa [List.get?_cons_succ] using hjt)

/-- When the scan selects nothing, every present score is at most the
sentinel. -/
theorem select_eq_none_spec (scores : List (Option ℚ)) (init : ℚ)
    (h : select scores init = none) :
    ∀ j s, scores.get? j = some (some s) → s ≤ init := by
  obtain ⟨h1, h2, h3⟩ := selGo_spec scores 0 none init
  rcases h3 with h3 | ⟨k, s, hk1, hk2, hk3, hk4, hk5⟩
  · intro j s hj
    have hs := h2 j s hj
    rw [h3] at hs
    exact hs
  · rw [select, hk1] at h
    exact absurd h (by simp)

/-- When the scan selects index `i`, its score is present, strictly exceeds
the sentinel, dominates every present score, and strictly dominates every
earlier present score. -/
theorem select_eq_some_spec (scores : List (Option ℚ)) (init : ℚ) (i : Nat)
    (h : select scores init = some i) :
    ∃ s, scores.get? i = some (some s) ∧ init < s ∧
      (∀ j t, scores.get? j = some (some t) → t ≤ s) ∧
      (∀ j t, j < i → scores.get? j = some (some t) → t < s) := by
  obtain ⟨h1, h2, h3⟩ := selGo_spec scores 0 none init
  rcases h3 with h3 | ⟨k, s, hk1, hk2, hk3, hk4, hk5⟩
  · rw [select, h3] at h
    exact absurd h (by simp)
  · rw [select, hk1] at h
    have hki : k = i := by
      have := Option.some.inj h
      omega
    subst hki
    refine ⟨s, hk3, hk4, ?_, hk5⟩
    intro j t hj
    have := h2 j t hj
    rw [hk2] at this
    exact this

/-- If some present score strictly exceeds the sentinel, the scan selects
something. -/
theorem select_isSome_spec (scores : List (Option ℚ)) (init : ℚ) (j : Nat)
    (s : ℚ) (hj : scores.get? j = some (some s)) (hs : init < s) :
    ∃ i, select scores init = some i := by
  cases hsel : select scores init with
  | none =>
      have := select_eq_none_spec scores init hsel j s hj
      exact absurd hs (not_lt.mpr this)
  | some i => exact ⟨i, rfl⟩

theorem get?_map_option (f : Nat → Option ℚ) (l : List Nat) (n : Nat) :
    (l.map f).get? n = Option.map f (l.get? n) := by
  simp [List.get?_eq_getElem?, List.getElem?_map]

theorem getD_of_get? (l : List Nat) (n m : Nat) (h : l.get? n = some m) :
    l.getD n 0 = m := by
  rw [List.getD_eq_getElem?_getD, ← List.get?_eq_getElem?, h]
  rfl

/-- A successful scan over `machines.map (fun m => if feas m then some
(score m) else none)` returns the pool index of a feasible machine whose
score beats the sentinel, dominates all feasible machines, and strictly
dominates all earlier feasible machines. -/
theorem selectFiltered_some (machines : List Nat) (feas : Nat → Bool)
    (score : Nat → ℚ) (init : ℚ) (i : Nat)
    (h : select (machines.map fun m => if feas m then some (score m) else none)
          init = some i) :
    ∃ m, machines.get? i = some m ∧ feas m = true ∧ init < score m ∧
      (∀ j m', machines.get? j = some m' → feas m' = true →
        score m' ≤ score m) ∧
      (∀ j m', j < i → machines.get? j = some m' → feas m' = true →
        score m' < score m) := by
  obtain ⟨s, hi, hinit, hmax, hfirst⟩ := select_eq_some_spec _ init i h
  rw [get?_map_option] at hi
  cases hm : machines.get? i with
  | none => rw [hm] at hi; simp at hi
  | some m =>
      rw [hm] at hi
      by_cases hf : feas m
      · simp only [Option.map_some', hf, if_true, Option.some.injEq] at hi
        refine ⟨m, rfl, hf, ?_, ?_, ?_⟩
        · rw [← hi] at hinit; exact hinit
        · intro j m' hj hf'
          have hjs : (machines.map fun m =>
              if feas m then some (score m) else none).get? j
                = some (some (score m')) := by
            rw [get?_map_option, hj]; simp [hf']
          have := hmax j (score m') hjs
          rw [hi]; exact this
        · intro j m' hji hj hf'
          have hjs : (machines.map fun m =>
              if feas m then some (score m) else none).get? j
                = some (some (score m')) := by
            rw [get?_map_option, hj]; simp [hf']
          have := hfirst j (score m') hji hjs
          rw [hi]; exact this
      · simp [hf] at hi

/-- A failed scan means every feasible machine's score is at most the
sentinel. -/
theorem selectFiltered_none (machines : List Nat) (feas : Nat → Bool)
    (score : Nat → ℚ) (init : ℚ)
    (h : select (machines.map fun m => if feas m then some (score m) else none)
          init = none) :
    ∀ j m, machines.get? j = some m → feas m = true → score m ≤ init := by
  intro j m hj hf
  apply select_eq_none_spec _ init h j (score m)
  rw [get?_map_option, hj]; simp [hf]

/-- A feasible machine beating the sentinel forces the scan to select
something. -/
theorem selectFiltered_isSome (machines : List Nat) (feas : Nat → Bool)
    (score : Nat → ℚ) (init : ℚ) (j m : Nat)
    (hj : machines.get? j = some m) (hf : feas m = true)
    (hs : init < score m) :
    ∃ i, select (machines.map fun m => if feas m then some (score m) else none)
          init = some i := by
  apply select_isSome_spec _ init j (score m) _ hs
  rw [get?_map_option, hj]; simp [hf]

/-! ## Feasibility unfoldings and per-variant selection characterizations -/

theorem greedyFeasible_iff (mi : MachineInfo) (t : TaskReq) :
    greedyFeasible mi t = true ↔
      mi.s_state = SState.S0 ∧ mi.cpu = t.need_cpu ∧
        mi.memory_used + t.need_mem ≤ mi.memory_size := by
  simp [greedyFeasible, Bool.and_eq_true, decide_eq_true_eq, and_assoc]

theorem pmFeasible_iff (mi : MachineInfo) (t : TaskReq) :
    pmFeasible mi t = true ↔
      mi.s_state = SState.S0 ∧ mi.cpu = t.need_cpu ∧
        (t.need_gpu = true → mi.gpus = true) ∧
        mi.memory_used + t.need_mem ≤ mi.memory_size := by
  cases hg : t.need_gpu <;> cases hgp : mi.gpus <;>
    simp [pmFeasible, hg, hgp, Bool.and_eq_true, decide_eq_true_eq, and_assoc]

/-- A successful `part_001` scan returns a feasible machine whose capped
slack beats the `-1.0` sentinel, dominates every feasible machine, and
strictly dominates every earlier feasible machine. -/
theorem greedySelect_some_char (snap : Nat → MachineInfo)
    (machines : List Nat) (t : TaskReq) (i : Nat)
    (h : greedySelect snap machines t = some i) :
    ∃ m, machines.get? i = some m ∧ greedyFeasible (snap m) t = true ∧
      -1 < greedySlack (snap m) t ∧
      (∀ j m', machines.get? j = some m' → greedyFeasible (snap m') t = true →
        greedySlack (snap m') t ≤ greedySlack (snap m) t) ∧
      (∀ j m', j < i → machines.get? j = some m' →
        greedyFeasible (snap m') t = true →
        greedySlack (snap m') t < greedySlack (snap m) t) := by
  simp only [greedySelect, greedyScores] at h
  exact selectFiltered_some machines _ _ _ i h

/-- A feasible machine with slack above the sentinel forces the `part_001`
scan to select something. -/
theorem greedySelect_isSome (snap : Nat → MachineInfo) (machines : List Nat)
    (t : TaskReq) (j m : Nat) (hj : machines.get? j = some m)
    (hf : greedyFeasible (snap m) t = true)
    (hs : -1 < greedySlack (snap m) t) :
    ∃ i, greedySelect snap machines t = some i := by
  simp only [greedySelect, greedyScores]
  exact selectFiltered_isSome machines _ _ _ j m hj hf hs

/-- A successful pMapper scan returns a feasible machine whose efficiency
beats the `-1000000.0` sentinel, dominates every feasible machine, and
strictly dominates every earlier feasible machine. -/
theorem pmSelect_some_char (snap : Nat → MachineInfo) (machines : List Nat)
    (vms : List VMRec) (t : TaskReq) (i : Nat)
    (h : pmSelect snap machines vms t = some i) :
    ∃ m, machines.get? i = some m ∧ pmFeasible (snap m) t = true ∧
      -1000000 < pmEfficiency snap vms t m ∧
      (∀ j m', machines.get? j = some m' → pmFeasible (snap m') t = true →
        pmEfficiency snap vms t m' ≤ pmEfficiency snap vms t m) ∧
      (∀ j m', j < i → machines.get? j = some m' →
        pmFeasible (snap m') t = true →
        pmEfficiency snap vms t m' < pmEfficiency snap vms t m) := by
  simp only [pmSelect, pmScores] at h
  exact selectFiltered_some machines _ _ _ i h

/-- A feasible machine with efficiency above the sentinel forces the pMapper
scan to select something. -/
theorem pmSelect_isSome (snap : Nat → MachineInfo) (machines : List Nat)
    (vms : List VMRec) (t : TaskReq) (j m : Nat)
    (hj : machines.get? j = some m) (hf : pmFeasible (snap m) t = true)
    (hs : -1000000 < pmEfficiency snap vms t m) :
    ∃ i, pmSelect snap machines vms t = some i := by
  simp only [pmSelect, pmScores]
  exact selectFiltered_isSome machines _ _ _ j m hj hf hs

/-- Under feasibility and a positive memory size, the pMapper efficiency is
nonnegative (both utilizations lie in `[0,1]` and all bonuses are
nonnegative) — hence always beats the `-1000000.0` sentinel. -/
theorem pmEfficiency_nonneg (snap : Nat → MachineInfo) (vms : List VMRec)
    (t : TaskReq) (m : Nat) (hf : pmFeasible (snap m) t = true)
    (hs : 0 < (snap m).memory_size) :
    0 ≤ pmEfficiency snap vms t m := by
  obtain ⟨_, _, _, hmem⟩ := (pmFeasible_iff _ _).mp hf
  have hu0 : 0 ≤ cpuUtilCapped (snap m) := by
    unfold cpuUtilCapped
    split
    · exact le_min (div_nonneg (Nat.cast_nonneg _) (Nat.cast_nonneg _))
        zero_le_one
    · exact le_refl 0
  have hu1 : cpuUtilCapped (snap m) ≤ 1 := by
    unfold cpuUtilCapped
    split
    · exact min_le_right _ _
    · exact zero_le_one
  have hv0 : 0 ≤ memUtilAfter (snap m) t.need_mem := by
    unfold memUtilAfter
    exact div_nonneg (Nat.cast_nonneg _) (Nat.cast_nonneg _)
  have hv1 : memUtilAfter (snap m) t.need_mem ≤ 1 := by
    unfold memUtilAfter
    rw [div_le_one (by exact_mod_cast hs)]
    exact_mod_cast hmem
  have hb1 : 0 ≤ (((vms.filter (fun v => matchingVM v m t)).length : ℚ)) / 10 := by
    positivity
  have hb2 : 0 ≤ (if t.need_gpu && (snap m).gpus then (1:ℚ)/10 else 0) := by
    split
    · norm_num
    · exact le_refl 0
  unfold pmEfficiency
  linarith

/-- Characterization: `List.find?` returns the first entry satisfying the predicate:
characterization used for the VM-reuse loop. -/
theorem find?_first_spec (p : VMRec → Bool) (l : List VMRec) (v : VMRec)
    (h : l.find? p = some v) :
    p v = true ∧ ∃ k, l.get? k = some v ∧
      ∀ j w, j < k → l.get? j = some w → p w = false := by
  induction l with
  | nil => simp [List.find?] at h
  | cons a l ih =>
      cases hpa : p a with
      | true =>
          rw [List.find?_cons_of_pos _ hpa] at h
          have hva := Option.some.inj h
          subst hva
          refine ⟨hpa, 0, by simp [List.get?_cons_zero], ?_⟩
          intro j w hj
          omega
      | false =>
          rw [List.find?_cons_of_neg _ (by simp [hpa])] at h
          obtain ⟨hv, k, hk, hfirst⟩ := ih h
          refine ⟨hv, k + 1, by simpa [List.get?_cons_succ] using hk, ?_⟩
          intro j w hj hw
          cases j with
          | zero =>
              simp [List.get?_cons_zero] at hw
              subst hw
              exact hpa
          | succ j =>
              exact hfirst j w (by omega)
                (by simpa [List.get?_cons_succ] using hw)

/-! ## Match-reduction stepping lemmas for the task-arrival handlers -/

theorem greedyNewTask_eq_none (snap : Nat → MachineInfo) (now : Nat)
    (st : SchedState) (t : TaskReq) (taskId createRet : Nat)
    (h : greedySelect snap st.machines t = none) :
    greedyNewTask snap now st t taskId createRet = (st, []) := by
  unfold greedyNewTask
  rw [h]

theorem greedyNewTask_eq_some (snap : Nat → MachineInfo) (now : Nat)
    (st : SchedState) (t : TaskReq) (taskId createRet i : Nat)
    (h : greedySelect snap st.machines t = some i) :
    greedyNewTask snap now st t taskId createRet =
      (match findReusableVM st.vms (st.machines.getD i 0) t with
       | some v => (st, [HostCall.addTask v.id taskId (PriorityFromSLA t.sla)])
       | none =>
          ({ st with
              vms := st.vms ++
                [⟨createRet, st.machines.getD i 0, t.need_vm,
                  (snap (st.machines.getD i 0)).cpu⟩] },
           [HostCall.vmCreate t.need_vm (snap (st.machines.getD i 0)).cpu,
            HostCall.vmAttach createRet (st.machines.getD i 0),
            HostCall.addTask createRet taskId (PriorityFromSLA t.sla)])) := by
  unfold greedyNewTask
  rw [h]

theorem pmNewTask_eq_none (snap : Nat → MachineInfo) (now : Nat)
    (st : SchedState) (t : TaskReq) (taskId createRet : Nat)
    (h : pmSelect snap st.machines st.vms t = none) :
    pmNewTask snap now st t taskId createRet = (st, []) := by
  unfold pmNewTask
  rw [h]

theorem pmNewTask_eq_some (snap : Nat → MachineInfo) (now : Nat)
    (st : SchedState) (t : TaskReq) (taskId createRet i : Nat)
    (h : pmSelect snap st.machines st.vms t = some i) :
    pmNewTask snap now st t taskId createRet =
      (if (snap (st.machines.getD i 0)).cpu ≠ t.need_cpu then (st, [])
       else
        match findReusableVM st.vms (st.machines.getD i 0) t with
        | some v =>
            (st, [HostCall.addTask v.id taskId (PriorityFromSLA t.sla)])
        | none =>
            if createRet = UINT32_MAX then
              (st, [HostCall.vmCreate t.need_vm
                      (snap (st.machines.getD i 0)).cpu])
            else
              ({ st with
                  vms := st.vms ++
                    [⟨createRet, st.machines.getD i 0, t.need_vm,
                      (snap (st.machines.getD i 0)).cpu⟩] },
               [HostCall.vmCreate t.need_vm (snap (st.machines.getD i 0)).cpu,
                HostCall.vmAttach createRet (st.machines.getD i 0),
                HostCall.addTask createRet taskId (PriorityFromSLA t.sla)])) := by
  unfold pmNewTask
  rw [h]

/-! ## Concrete evaluations shared by witnesses -/

theorem greedySelect_snapOne_eval :
    greedySelect snapOneX86 [0] taskSimple = some 0 := by
  have hs : greedyScores snapOneX86 [0] taskSimple = [some (9/10)] := by
    simp only [greedyScores, List.map_cons, List.map_nil]
    norm_num [greedyFeasible, snapOneX86, taskSimple, greedySlack,
      cpuUtilCapped, memUtilAfter, min_def]
  rw [greedySelect, hs, select]
  norm_num [selGo]

theorem pmSelect_snapOne_empty_eval :
    pmSelect snapOneX86 [0] [] taskSimple = some 0 := by
  have hs : pmScores snapOneX86 [0] [] taskSimple = [some (19/20)] := by
    simp only [pmScores, List.map_cons, List.map_nil]
    norm_num [pmFeasible, snapOneX86, taskSimple, pmEfficiency,
      cpuUtilCapped, memUtilAfter, min_def, List.filter, matchingVM]
  rw [pmSelect, hs, select]
  norm_num [selGo]

theorem pmSelect_snapOne_pool_eval :
    pmSelect snapOneX86 [0] vmPool50 taskSimple = some 0 := by
  have hs : pmScores snapOneX86 [0] vmPool50 taskSimple = [some (21/20)] := by
    simp only [pmScores, List.map_cons, List.map_nil]
    norm_num [pmFeasible, snapOneX86, taskSimple, pmEfficiency,
      cpuUtilCapped, memUtilAfter, min_def, List.filter, matchingVM, vmPool50]
  rw [pmSelect, hs, select]
  norm_num [selGo]

/-! ## Claim theorems -/

/-- C1 (counterexample): the Load-Balancing variant of `Scheduler.cpp`
**commits** a memory-infeasible task instead of reporting it unallocated:
with a single machine whose memory is full (`10` used of `10`) and a task
demanding `8`, the fallback `VM_AddTask(vms[task_id % active_machines], ...)`
fires and the task is committed to pooled VM `100`. -/
theorem lb_fallback_places_memory_infeasible_task :
    (cexSnapFull 0).memory_size
        < (cexSnapFull 0).memory_used + taskMem8.need_mem ∧
    lbNewTask cexSnapFull [0] [100] 1 taskMem8 7
      = [HostCall.addTask 100 7 Priority.LOW_PRIORITY] := by
  constructor
  · decide
  · decide

/-- C1 (amended): in the Greedy (`part_001`) handler, a task whose memory
demand exceeds every machine's remaining capacity is left unallocated (no
host call, state unchanged); and whenever the scan does choose a host, that
host satisfies `memory_used + need_mem ≤ memory_size` before any
`VM_AddTask`. -/
theorem memory_infeasible_task_left_unallocated (snap : Nat → MachineInfo)
    (now : Nat) (st : SchedState) (t : TaskReq) (taskId createRet : Nat) :
    ((∀ m ∈ st.machines,
        (snap m).memory_size < (snap m).memory_used + t.need_mem) →
      greedyNewTask snap now st t taskId createRet = (st, [])) ∧
    (∀ i m, greedySelect snap st.machines t = some i →
      st.machines.get? i = some m →
      (snap m).memory_used + t.need_mem ≤ (snap m).memory_size) := by
  constructor
  · intro h
    cases hsel : greedySelect snap st.machines t with
    | none => exact greedyNewTask_eq_none snap now st t taskId createRet hsel
    | some i =>
        exfalso
        obtain ⟨m, hm, hf, -, -, -⟩ :=
          greedySelect_some_char snap st.machines t i hsel
        obtain ⟨-, -, hmem⟩ := (greedyFeasible_iff _ _).mp hf
        have := h m (List.get?_mem hm)
        omega
  · intro i m hsel hm
    obtain ⟨m', hm', hf, -, -, -⟩ :=
      greedySelect_some_char snap st.machines t i hsel
    rw [hm] at hm'
    obtain rfl := Option.some.inj hm'
    exact ((greedyFeasible_iff _ _).mp hf).2.2

theorem memory_infeasible_task_left_unallocated_witness :
    greedyNewTask cexSnapFull 0 ⟨[0], [], false⟩ taskMem8 7 9
      = (⟨[0], [], false⟩, []) ∧
    (snapOneX86 0).memory_used + taskSimple.need_mem
      ≤ (snapOneX86 0).memory_size :=
  ⟨(memory_infeasible_task_left_unallocated cexSnapFull 0 ⟨[0], [], false⟩
      taskMem8 7 9).1 (by decide),
   (memory_infeasible_task_left_unallocated snapOneX86 0 ⟨[0], [], false⟩
      taskSimple 7 9).2 0 0 greedySelect_snapOne_eval rfl⟩

/-- C2 (counterexample): `part_000`'s placement (whose CPU check is
commented out and which has no GPU check) selects a host violating the
architecture clause: a lone ARM machine is selected for a task requiring
X86. -/
theorem part000_selects_architecture_mismatched_host :
    select000 cexSnapARM [0] taskX86Mem10 = some 0 ∧
    (cexSnapARM 0).cpu ≠ taskX86Mem10.need_cpu := by
  constructor
  · have hs : scores000 cexSnapARM [0] taskX86Mem10 = [some (9/10)] := by
      simp only [scores000, List.map_cons, List.map_nil]
      norm_num [feasible000, cexSnapARM, taskX86Mem10, slack000,
        cpuUtilRaw, memUtilAfter]
    rw [select000, hs, select]
    norm_num [selGo]
  · decide

/-- C2 (amended): the pMapper variant's selected host satisfies the full
feasibility conjunction (running, architecture match, GPU when required,
memory fit); the Greedy `part_001` variant's selected host satisfies the
power, architecture and memory clauses (it performs no GPU check), and
`part_000` checks only power and memory. -/
theorem selected_host_satisfies_feasibility (snap : Nat → MachineInfo)
    (machines : List Nat) (vms : List VMRec) (t : TaskReq) :
    (∀ i m, pmSelect snap machines vms t = some i →
      machines.get? i = some m →
      (snap m).s_state = SState.S0 ∧ (snap m).cpu = t.need_cpu ∧
      (t.need_gpu = true → (snap m).gpus = true) ∧
      (snap m).memory_used + t.need_mem ≤ (snap m).memory_size) ∧
    (∀ i m, greedySelect snap machines t = some i →
      machines.get? i = some m →
      (snap m).s_state = SState.S0 ∧ (snap m).cpu = t.need_cpu ∧
      (snap m).memory_used + t.need_mem ≤ (snap m).memory_size) := by
  constructor
  · intro i m hsel hm
    obtain ⟨m', hm', hf, -, -, -⟩ :=
      pmSelect_some_char snap machines vms t i hsel
    rw [hm] at hm'
    obtain rfl := Option.some.inj hm'
    exact (pmFeasible_iff _ _).mp hf
  · intro i m hsel hm
    obtain ⟨m', hm', hf, -, -, -⟩ :=
      greedySelect_some_char snap machines t i hsel
    rw [hm] at hm'
    obtain rfl := Option.some.inj hm'
    exact (greedyFeasible_iff _ _).mp hf

theorem selected_host_satisfies_feasibility_witness :
    ((snapOneX86 0).s_state = SState.S0 ∧
     (snapOneX86 0).cpu = taskSimple.need_cpu ∧
     (taskSimple.need_gpu = true → (snapOneX86 0).gpus = true) ∧
     (snapOneX86 0).memory_used + taskSimple.need_mem
       ≤ (snapOneX86 0).memory_size) ∧
    ((snapOneX86 0).s_state = SState.S0 ∧
     (snapOneX86 0).cpu = taskSimple.need_cpu ∧
     (snapOneX86 0).memory_used + taskSimple.need_mem
       ≤ (snapOneX86 0).memory_size) :=
  ⟨(selected_host_satisfies_feasibility snapOneX86 [0] [] taskSimple).1 0 0
      pmSelect_snapOne_empty_eval rfl,
   (selected_host_satisfies_feasibility snapOneX86 [0] [] taskSimple).2 0 0
      greedySelect_snapOne_eval rfl⟩

/-- C3 (counterexample): `part_001` caps cpu utilization at `1.0`, so it
does **not** maximize the claim's (uncapped) slack formula: machine 0
(16 active tasks on 8 cores) and machine 1 (8 on 8) tie under the capped
slack and the scan keeps machine 0, although machine 1 is feasible with
strictly greater uncapped slack (`-1/2` vs `-3/2`). -/
theorem greedy_deviates_from_uncapped_slack_argmax :
    greedySelect cexSnapCap [0, 1] taskCap = some 0 ∧
    greedyFeasible (cexSnapCap 1) taskCap = true ∧
    specSlack (cexSnapCap 0) taskCap < specSlack (cexSnapCap 1) taskCap := by
  refine ⟨?_, by decide, ?_⟩
  · have hs : greedyScores cexSnapCap [0, 1] taskCap
        = [some (-1/2), some (-1/2)] := by
      simp only [greedyScores, List.map_cons, List.map_nil]
      norm_num [greedyFeasible, cexSnapCap, taskCap, greedySlack,
        cpuUtilCapped, memUtilAfter, min_def]
    rw [greedySelect, hs, select]
    norm_num [selGo]
  · norm_num [specSlack, cexSnapCap, taskCap]

/-- C3 (amended): `part_001`'s Best-slack scan selects, among feasible
machines, one maximizing the slack computed with cpu utilization **capped at
1.0**, ties to the lowest pool index; a selection is guaranteed whenever
some feasible machine has slack strictly above the scan's `-1.0` sentinel. -/
theorem greedy_selects_max_capped_slack (snap : Nat → MachineInfo)
    (machines : List Nat) (t : TaskReq) :
    ((∃ j m, machines.get? j = some m ∧ greedyFeasible (snap m) t = true ∧
        -1 < greedySlack (snap m) t) →
      ∃ i, greedySelect snap machines t = some i) ∧
    (∀ i m, greedySelect snap machines t = some i →
      machines.get? i = some m →
      greedyFeasible (snap m) t = true ∧
      (∀ j m', machines.get? j = some m' →
        greedyFeasible (snap m') t = true →
        greedySlack (snap m') t ≤ greedySlack (snap m) t) ∧
      (∀ j m', machines.get? j = some m' →
        greedyFeasible (snap m') t = true →
        greedySlack (snap m') t = greedySlack (snap m) t → i ≤ j)) := by
  constructor
  · rintro ⟨j, m, hj, hf, hs⟩
    exact greedySelect_isSome snap machines t j m hj hf hs
  · intro i m hsel hm
    obtain ⟨m', hm', hf, -, hmax, hfirst⟩ :=
      greedySelect_some_char snap machines t i hsel
    rw [hm] at hm'
    obtain rfl := Option.some.inj hm'
    refine ⟨hf, hmax, ?_⟩
    intro j' m'' hj' hf'' heq
    by_contra hlt
    push_neg at hlt
    have := hfirst j' m'' hlt hj' hf''
    rw [heq] at this
    exact lt_irrefl _ this

theorem greedy_selects_max_capped_slack_witness :
    (∃ i, greedySelect snapOneX86 [0] taskSimple = some i) ∧
    greedyFeasible (snapOneX86 0) taskSimple = true :=
  ⟨(greedy_selects_max_capped_slack snapOneX86 [0] taskSimple).1
      ⟨0, 0, rfl, by decide,
        by norm_num [greedySlack, cpuUtilCapped, memUtilAfter, snapOneX86,
          taskSimple, min_def]⟩,
   ((greedy_selects_max_capped_slack snapOneX86 [0] taskSimple).2 0 0
      greedySelect_snapOne_eval rfl).1⟩

/-- C4 (counterexample): the pMapper bonus loop adds `+0.1` **per** matching
pooled VM, not a single fixed bonus: machine 0 (two matching VMs, code score
`19/20`) is selected over machine 1 (one matching VM, code score `9/10`),
although machine 1 is feasible and has the strictly greater single-bonus
efficiency of the claim (`9/10` vs `17/20`). -/
theorem pmapper_deviates_from_single_bonus_argmax :
    pmSelect cexSnapBonus [0, 1] cexVmsBonus taskBonus = some 0 ∧
    pmFeasible (cexSnapBonus 1) taskBonus = true ∧
    specEfficiency cexSnapBonus cexVmsBonus taskBonus 0
      < specEfficiency cexSnapBonus cexVmsBonus taskBonus 1 := by
  refine ⟨?_, by decide, ?_⟩
  · have hs : pmScores cexSnapBonus [0, 1] cexVmsBonus taskBonus
        = [some (19/20), some (9/10)] := by
      simp only [pmScores, List.map_cons, List.map_nil]
      norm_num [pmFeasible, cexSnapBonus, taskBonus, pmEfficiency,
        cpuUtilCapped, memUtilAfter, min_def, cexVmsBonus, matchingVM,
        List.filter]
    rw [pmSelect, hs, select]
    norm_num [selGo]
  · norm_num [specEfficiency, cexSnapBonus, cexVmsBonus, taskBonus,
      matchingVM, List.any, min_def]

/-- C4 (amended): the pMapper scan selects, among feasible machines, one
maximizing the efficiency computed with cpu utilization capped at `1.0` and
a `+0.1` bonus **per** matching pooled VM, ties to the lowest pool index; a
selection is guaranteed whenever a feasible machine exists (on a fleet with
positive memory sizes). -/
theorem pmapper_selects_max_per_vm_bonus_efficiency
    (snap : Nat → MachineInfo) (machines : List Nat) (vms : List VMRec)
    (t : TaskReq) :
    ((∀ m ∈ machines, 0 < (snap m).memory_size) →
      (∃ j m, machines.get? j = some m ∧ pmFeasible (snap m) t = true) →
      ∃ i, pmSelect snap machines vms t = some i) ∧
    (∀ i m, pmSelect snap machines vms t = some i →
      machines.get? i = some m →
      pmFeasible (snap m) t = true ∧
      (∀ j m', machines.get? j = some m' → pmFeasible (snap m') t = true →
        pmEfficiency snap vms t m' ≤ pmEfficiency snap vms t m) ∧
      (∀ j m', machines.get? j = some m' → pmFeasible (snap m') t = true →
        pmEfficiency snap vms t m' = pmEfficiency snap vms t m → i ≤ j)) := by
  constructor
  · rintro hwf ⟨j, m, hj, hf⟩
    have h0 : (0:ℚ) ≤ pmEfficiency snap vms t m :=
      pmEfficiency_nonneg snap vms t m hf (hwf m (List.get?_mem hj))
    exact pmSelect_isSome snap machines vms t j m hj hf (by linarith)
  · intro i m hsel hm
    obtain ⟨m', hm', hf, -, hmax, hfirst⟩ :=
      pmSelect_some_char snap machines vms t i hsel
    rw [hm] at hm'
    obtain rfl := Option.some.inj hm'
    refine ⟨hf, hmax, ?_⟩
    intro j' m'' hj' hf'' heq
    by_contra hlt
    push_neg at hlt
    have := hfirst j' m'' hlt hj' hf''
    rw [heq] at this
    exact lt_irrefl _ this

theorem pmapper_selects_max_per_vm_bonus_efficiency_witness :
    (∃ i, pmSelect snapOneX86 [0] [] taskSimple = some i) ∧
    pmFeasible (snapOneX86 0) taskSimple = true :=
  ⟨(pmapper_selects_max_per_vm_bonus_efficiency snapOneX86 [0] []
      taskSimple).1 (by decide) ⟨0, 0, rfl, by decide⟩,
   ((pmapper_selects_max_per_vm_bonus_efficiency snapOneX86 [0] []
      taskSimple).2 0 0 pmSelect_snapOne_empty_eval rfl).1⟩

/-- C5: once the pMapper scan has chosen a host, the task is committed to
the **first** pooled VM (in creation order) on that host whose declared type
and CPU architecture match the task, with no VM creation; a VM is created
and attached only when no such VM exists. -/
theorem task_committed_to_first_matching_vm (snap : Nat → MachineInfo)
    (now : Nat) (st : SchedState) (t : TaskReq) (taskId createRet i host : Nat)
    (hsel : pmSelect snap st.machines st.vms t = some i)
    (hhost : st.machines.get? i = some host) :
    (∀ v, findReusableVM st.vms host t = some v →
      pmNewTask snap now st t taskId createRet
        = (st, [HostCall.addTask v.id taskId (PriorityFromSLA t.sla)]) ∧
      matchingVM v host t = true ∧
      (∃ k, st.vms.get? k = some v ∧
        ∀ j w, j < k → st.vms.get? j = some w →
          matchingVM w host t = false)) ∧
    (findReusableVM st.vms host t = none → createRet ≠ UINT32_MAX →
      pmNewTask snap now st t taskId createRet
        = ({ st with
              vms := st.vms ++ [⟨createRet, host, t.need_vm, (snap host).cpu⟩] },
           [HostCall.vmCreate t.need_vm (snap host).cpu,
            HostCall.vmAttach createRet host,
            HostCall.addTask createRet taskId (PriorityFromSLA t.sla)])) := by
  have hgetD : st.machines.getD i 0 = host := getD_of_get? _ _ _ hhost
  obtain ⟨m', hm', hf, -, -, -⟩ :=
    pmSelect_some_char snap st.machines st.vms t i hsel
  rw [hhost] at hm'
  obtain rfl := Option.some.inj hm'
  have hcpu : (snap host).cpu = t.need_cpu := ((pmFeasible_iff _ _).mp hf).2.1
  have hred := pmNewTask_eq_some snap now st t taskId createRet i hsel
  rw [hgetD] at hred
  rw [if_neg (fun hne => hne hcpu)] at hred
  constructor
  · intro v hre
    obtain ⟨hmv, k, hk, hfirst⟩ := find?_first_spec _ _ _ hre
    rw [hre] at hred
    exact ⟨hred, hmv, k, hk, hfirst⟩
  · intro hre hcr
    rw [hre] at hred
    rw [if_neg hcr] at hred
    exact hred

theorem task_committed_to_first_matching_vm_witness :
    pmNewTask snapOneX86 0 ⟨[0], vmPool50, false⟩ taskSimple 7 9
      = (⟨[0], vmPool50, false⟩,
         [HostCall.addTask 50 7 Priority.MID_PRIORITY]) :=
  (((task_committed_to_first_matching_vm snapOneX86 0 ⟨[0], vmPool50, false⟩
      taskSimple 7 9 0 0 pmSelect_snapOne_pool_eval rfl).1
    ⟨50, 0, VMType.LINUX, CPUType.X86⟩ (by decide))).1

/-- C6 (counterexample): the Greedy `part_001` handler performs **no**
failure check on `VM_Create`'s return: when the host returns the failure
value `(VMId_t)-1 = 4294967295`, the handler still attaches it and commits
the task to it, instead of leaving the task unallocated. -/
theorem greedy_commits_to_failed_vm_id :
    (greedyNewTask snapOneX86 0 ⟨[0], [], false⟩ taskSimple 7 UINT32_MAX).2
      = [HostCall.vmCreate VMType.LINUX CPUType.X86,
         HostCall.vmAttach UINT32_MAX 0,
         HostCall.addTask UINT32_MAX 7 Priority.MID_PRIORITY] ∧
    HostCall.vmAttach UINT32_MAX 0
      ∈ (greedyNewTask snapOneX86 0 ⟨[0], [], false⟩ taskSimple 7
          UINT32_MAX).2 := by
  have hred := greedyNewTask_eq_some snapOneX86 0 ⟨[0], [], false⟩ taskSimple
    7 UINT32_MAX 0 greedySelect_snapOne_eval
  rw [hred]
  constructor
  · rfl
  · simp [findReusableVM, List.find?]

/-- C6 (amended): the pMapper handler treats `VM_Create` failure
(`vm == (VMId_t)-1`) exactly like "no feasible host": the task is left
unallocated, the state is unchanged, and no attachment or commit is
attempted on the failed id — the single `VM_Create` request is the whole
trace (no retry). -/
theorem pmapper_treats_create_failure_as_infeasible
    (snap : Nat → MachineInfo) (now : Nat) (st : SchedState) (t : TaskReq)
    (taskId i host : Nat)
    (hsel : pmSelect snap st.machines st.vms t = some i)
    (hhost : st.machines.get? i = some host)
    (hnone : findReusableVM st.vms host t = none) :
    pmNewTask snap now st t taskId UINT32_MAX
      = (st, [HostCall.vmCreate t.need_vm (snap host).cpu]) := by
  have hgetD : st.machines.getD i 0 = host := getD_of_get? _ _ _ hhost
  obtain ⟨m', hm', hf, -, -, -⟩ :=
    pmSelect_some_char snap st.machines st.vms t i hsel
  rw [hhost] at hm'
  obtain rfl := Option.some.inj hm'
  have hcpu : (snap host).cpu = t.need_cpu := ((pmFeasible_iff _ _).mp hf).2.1
  have hred := pmNewTask_eq_some snap now st t taskId UINT32_MAX i hsel
  rw [hgetD] at hred
  rw [if_neg (fun hne => hne hcpu)] at hred
  rw [hnone] at hred
  rw [if_pos rfl] at hred
  exact hred

theorem pmapper_treats_create_failure_as_infeasible_witness :
    pmNewTask snapOneX86 0 ⟨[0], [], false⟩ taskSimple 7 UINT32_MAX
      = (⟨[0], [], false⟩, [HostCall.vmCreate VMType.LINUX CPUType.X86]) :=
  pmapper_treats_create_failure_as_infeasible snapOneX86 0 ⟨[0], [], false⟩
    taskSimple 7 0 0 pmSelect_snapOne_empty_eval rfl rfl

/-- C7: the placement decision and the resulting pool/trace are a
deterministic function of the task's requirements and the snapshot (fleet
view, VM pool): they do not depend on the event timestamp `now` or on the
leftover `migrating` flag, so identical snapshots and tasks yield identical
outcomes. -/
theorem placement_decision_deterministic (snap : Nat → MachineInfo)
    (machines : List Nat) (vms : List VMRec) (t : TaskReq)
    (taskId createRet now₁ now₂ : Nat) (mig₁ mig₂ : Bool) :
    (pmNewTask snap now₁ ⟨machines, vms, mig₁⟩ t taskId createRet).2
      = (pmNewTask snap now₂ ⟨machines, vms, mig₂⟩ t taskId createRet).2 ∧
    (pmNewTask snap now₁ ⟨machines, vms, mig₁⟩ t taskId createRet).1.vms
      = (pmNewTask snap now₂ ⟨machines, vms, mig₂⟩ t taskId createRet).1.vms ∧
    (greedyNewTask snap now₁ ⟨machines, vms, mig₁⟩ t taskId createRet).2
      = (greedyNewTask snap now₂ ⟨machines, vms, mig₂⟩ t taskId createRet).2 ∧
    (greedyNewTask snap now₁ ⟨machines, vms, mig₁⟩ t taskId createRet).1.vms
      = (greedyNewTask snap now₂ ⟨machines, vms, mig₂⟩ t taskId
          createRet).1.vms := by
  have pm2 : ∀ (now : Nat) (mig : Bool),
      (pmNewTask snap now ⟨machines, vms, mig⟩ t taskId createRet).2
        = (pmNewTask snap 0 ⟨machines, vms, false⟩ t taskId createRet).2 := by
    intro now mig
    cases hsel : pmSelect snap machines vms t with
    | none =>
        rw [pmNewTask_eq_none snap now ⟨machines, vms, mig⟩ t taskId
              createRet hsel,
            pmNewTask_eq_none snap 0 ⟨machines, vms, false⟩ t taskId
              createRet hsel]
    | some i =>
        rw [pmNewTask_eq_some snap now ⟨machines, vms, mig⟩ t taskId
              createRet i hsel,
            pmNewTask_eq_some snap 0 ⟨machines, vms, false⟩ t taskId
              createRet i hsel]
        by_cases hcpu : (snap (machines.getD i 0)).cpu ≠ t.need_cpu
        · rw [if_pos hcpu, if_pos hcpu]
        · rw [if_neg hcpu, if_neg hcpu]
          cases hre : findReusableVM vms (machines.getD i 0) t with
          | some v => rfl
          | none =>
              by_cases hc : createRet = UINT32_MAX
              · rw [if_pos hc, if_pos hc]
              · rw [if_neg hc, if_neg hc]
  have pmv : ∀ (now : Nat) (mig : Bool),
      (pmNewTask snap now ⟨machines, vms, mig⟩ t taskId createRet).1.vms
        = (pmNewTask snap 0 ⟨machines, vms, false⟩ t taskId createRet).1.vms := by
    intro now mig
    cases hsel : pmSelect snap machines vms t with
    | none =>
        rw [pmNewTask_eq_none snap now ⟨machines, vms, mig⟩ t taskId
              createRet hsel,
            pmNewTask_eq_none snap 0 ⟨machines, vms, false⟩ t taskId
              createRet hsel]
    | some i =>
        rw [pmNewTask_eq_some snap now ⟨machines, vms, mig⟩ t taskId
              createRet i hsel,
            pmNewTask_eq_some snap 0 ⟨machines, vms, false⟩ t taskId
              createRet i hsel]
        by_cases hcpu : (snap (machines.getD i 0)).cpu ≠ t.need_cpu
        · rw [if_pos hcpu, if_pos hcpu]
        · rw [if_neg hcpu, if_neg hcpu]
          cases hre : findReusableVM vms (machines.getD i 0) t with
          | some v => rfl
          | none =>
              by_cases hc : createRet = UINT32_MAX
              · rw [if_pos hc, if_pos hc]
              · rw [if_neg hc, if_neg hc]
  have gr2 : ∀ (now : Nat) (mig : Bool),
      (greedyNewTask snap now ⟨machines, vms, mig⟩ t taskId createRet).2
        = (greedyNewTask snap 0 ⟨machines, vms, false⟩ t taskId createRet).2 := by
    intro now mig
    cases hsel : greedySelect snap machines t with
    | none =>
        rw [greedyNewTask_eq_none snap now ⟨machines, vms, mig⟩ t taskId
              createRet hsel,
            greedyNewTask_eq_none snap 0 ⟨machines, vms, false⟩ t taskId
              createRet hsel]
    | some i =>
        rw [greedyNewTask_eq_some snap now ⟨machines, vms, mig⟩ t taskId
              createRet i hsel,
            greedyNewTask_eq_some snap 0 ⟨machines, vms, false⟩ t taskId
              createRet i hsel]
        cases hre : findReusableVM vms (machines.getD i 0) t with
        | some v => rfl
        | none => rfl
  have grv : ∀ (now : Nat) (mig : Bool),
      (greedyNewTask snap now ⟨machines, vms, mig⟩ t taskId createRet).1.vms
        = (greedyNewTask snap 0 ⟨machines, vms, false⟩ t taskId
            createRet).1.vms := by
    intro now mig
    cases hsel : greedySelect snap machines t with
    | none =>
        rw [greedyNewTask_eq_none snap now ⟨machines, vms, mig⟩ t taskId
              createRet hsel,
            greedyNewTask_eq_none snap 0 ⟨machines, vms, false⟩ t taskId
              createRet hsel]
    | some i =>
        rw [greedyNewTask_eq_some snap now ⟨machines, vms, mig⟩ t taskId
              createRet i hsel,
            greedyNewTask_eq_some snap 0 ⟨machines, vms, false⟩ t taskId
              createRet i hsel]
        cases hre : findReusableVM vms (machines.getD i 0) t with
        | some v => rfl
        | none => rfl
  exact ⟨(pm2 now₁ mig₁).trans (pm2 now₂ mig₂).symm,
         (pmv now₁ mig₁).trans (pmv now₂ mig₂).symm,
         (gr2 now₁ mig₁).trans (gr2 now₂ mig₂).symm,
         (grv now₁ mig₁).trans (grv now₂ mig₂).symm⟩

/-- C9: a single `Shutdown` call issues exactly one `VM_Shutdown` request
per pooled VM (counted with multiplicity — no VM skipped, none shut down
twice) and issues nothing on an empty pool. -/
theorem shutdown_once_per_pooled_vm :
    (∀ (vms : List VMRec) (id : Nat),
      (shutdownAll vms).count (HostCall.vmShutdown id)
        = (vms.map VMRec.id).count id) ∧
    shutdownAll ([] : List VMRec) = [] := by
  refine ⟨?_, rfl⟩
  intro vms id
  induction vms with
  | nil => rfl
  | cons v vms ih =>
      simp only [shutdownAll, List.map_cons] at *
      rw [List.count_cons, List.count_cons, ih]
      congr 1
      by_cases h : v.id = id
      · simp [h]
      · simp [h]

/-- C10: when no machine passes the feasibility scan, the task-arrival
handlers (Greedy `part_001` and pMapper) leave the scheduler state exactly
as it was and issue no host call at all — the infeasible outcome is
atomic. -/
theorem infeasible_arrival_is_atomic_noop (snap : Nat → MachineInfo)
    (now : Nat) (st : SchedState) (t : TaskReq) (taskId createRet : Nat) :
    ((∀ m ∈ st.machines, greedyFeasible (snap m) t = false) →
      greedyNewTask snap now st t taskId createRet = (st, [])) ∧
    ((∀ m ∈ st.machines, pmFeasible (snap m) t = false) →
      pmNewTask snap now st t taskId createRet = (st, [])) := by
  constructor
  · intro h
    cases hsel : greedySelect snap st.machines t with
    | none => exact greedyNewTask_eq_none snap now st t taskId createRet hsel
    | some i =>
        exfalso
        obtain ⟨m, hm, hf, -, -, -⟩ :=
          greedySelect_some_char snap st.machines t i hsel
        rw [h m (List.get?_mem hm)] at hf
        exact absurd hf (by simp)
  · intro h
    cases hsel : pmSelect snap st.machines st.vms t with
    | none => exact pmNewTask_eq_none snap now st t taskId createRet hsel
    | some i =>
        exfalso
        obtain ⟨m, hm, hf, -, -, -⟩ :=
          pmSelect_some_char snap st.machines st.vms t i hsel
        rw [h m (List.get?_mem hm)] at hf
        exact absurd hf (by simp)

theorem infeasible_arrival_is_atomic_noop_witness :
    greedyNewTask cexSnapFull 0 ⟨[0], [], false⟩ taskMem8 8 9
      = (⟨[0], [], false⟩, []) ∧
    pmNewTask cexSnapFull 0 ⟨[0], [], false⟩ taskMem8 8 9
      = (⟨[0], [], false⟩, []) :=
  ⟨(infeasible_arrival_is_atomic_noop cexSnapFull 0 ⟨[0], [], false⟩
      taskMem8 8 9).1 (by decide),
   (infeasible_arrival_is_atomic_noop cexSnapFull 0 ⟨[0], [], false⟩
      taskMem8 8 9).2 (by decide)⟩

/-- C8: the class-to-priority mapping is total and deterministic (it is a
Lean function, hence pure and total by construction), sends the highest
class `SLA0` to `HIGH_PRIORITY`, the second class `SLA1` to `MID_PRIORITY`,
and every other class (`SLA2`, `SLA3`) to `LOW_PRIORITY`. -/
theorem priorityFromSLA_spec :
    PriorityFromSLA SLAType.SLA0 = Priority.HIGH_PRIORITY ∧
    PriorityFromSLA SLAType.SLA1 = Priority.MID_PRIORITY ∧
    PriorityFromSLA SLAType.SLA2 = Priority.LOW_PRIORITY ∧
    PriorityFromSLA SLAType.SLA3 = Priority.LOW_PRIORITY := by
  decide

end CloudSim
